import Mathlib

/-!
# Lead-scoring pipeline: shallow embedding and verification

This file embeds the core lead-scoring pipeline of the repository
(rule engine `RuleScoringService`, AI adapter `AIScoringService` with its
fallback policy, and orchestrator `LeadScoringService`) as executable Lean
definitions, and proves the spec's testable properties about them.

External effects (the OpenAI credential and the outcome of the network
call, and the possibility that scoring a lead throws) are modelled as
explicit parameters, so every code path of the TypeScript source is a
reachable branch of a total Lean function.
-/

namespace Kuvaka

/-- The intent tier, `'High' | 'Medium' | 'Low'` in `src/types/index.ts`. -/
inductive Intent where
  | High
  | Medium
  | Low
deriving DecidableEq, Repr

/-- `Lead` from `src/types/index.ts`: six text fields. -/
structure Lead where
  name : String
  role : String
  company : String
  industry : String
  location : String
  linkedin_bio : String
deriving DecidableEq, Repr

/-- `Offer` from `src/types/index.ts`. -/
structure Offer where
  name : String
  value_props : List String
  ideal_use_cases : List String
deriving DecidableEq, Repr

/-- `ScoredLead` from `src/types/index.ts`: a `Lead` (flattened, as the
TS interface extends `Lead`) plus the five scoring fields. -/
structure ScoredLead where
  name : String
  role : String
  company : String
  industry : String
  location : String
  linkedin_bio : String
  intent : Intent
  score : Nat
  reasoning : String
  rule_score : Nat
  ai_score : Nat
deriving DecidableEq, Repr

/-- `ScoringBreakdown` from `src/types/index.ts`. -/
structure ScoringBreakdown where
  role_score : Nat
  industry_score : Nat
  completeness_score : Nat
  total_rule_score : Nat
deriving DecidableEq, Repr

/-- Result record of `AIScoringService.scoreWithAI` and its helpers:
`{ score, intent, reasoning }`. -/
structure AIResult where
  score : Nat
  intent : Intent
  reasoning : String
deriving DecidableEq, Repr

/-!
The JavaScript string operations the source uses (`includes`, `trim`,
`toLowerCase`, `toUpperCase`, `startsWith`, `split`, prefix removal) are
embedded as structurally recursive functions over the string's character
list, so that concrete runs reduce inside the kernel.
-/

/-- `pat` is a prefix-match at some position of `l`; helper for
`containsStr`. -/
def charsContain (pat : List Char) : List Char → Bool
  | [] => pat.isPrefixOf ([] : List Char)
  | c :: rest => pat.isPrefixOf (c :: rest) || charsContain pat rest

/-- JavaScript `s.includes(pat)`: `pat` occurs as a contiguous substring
of `s` (the empty pattern always matches). -/
def containsStr (s pat : String) : Bool :=
  charsContain pat.toList s.toList

/-- JavaScript `s.toLowerCase()` (ASCII-faithful). -/
def jsToLower (s : String) : String :=
  String.mk (s.data.map Char.toLower)

/-- JavaScript `s.toUpperCase()` (ASCII-faithful). -/
def jsToUpper (s : String) : String :=
  String.mk (s.data.map Char.toUpper)

/-- JavaScript `s.trim()`: strip whitespace from both ends. -/
def jsTrim (s : String) : String :=
  String.mk (((s.data.dropWhile Char.isWhitespace).reverse.dropWhile
    Char.isWhitespace).reverse)

/-- JavaScript `s.startsWith(pat)`. -/
def jsStartsWith (s pat : String) : Bool :=
  pat.data.isPrefixOf s.data

/-- JavaScript `s.slice(n)` on characters: drop the first `n` characters. -/
def jsDrop (s : String) (n : Nat) : String :=
  String.mk (s.data.drop n)

/-- Helper for `splitLines`: JavaScript `s.split('\n')` on character
lists, accumulating the current (reversed) segment. -/
def splitLinesAux : List Char → List Char → List (List Char)
  | [], acc => [acc.reverse]
  | c :: rest, acc =>
    if c = '\n' then acc.reverse :: splitLinesAux rest []
    else splitLinesAux rest (c :: acc)

/-- JavaScript `s.split('\n')`: the list of newline-separated segments
(one empty segment for the empty string, trailing separator yields a
trailing empty segment). -/
def splitLines (s : String) : List String :=
  (splitLinesAux s.data []).map String.mk

/-! ## Constants (`src/config/constants.ts`) -/

def SCORING_WEIGHTS_ROLE_DECISION_MAKER : Nat := 20
def SCORING_WEIGHTS_ROLE_INFLUENCER : Nat := 10
def SCORING_WEIGHTS_ROLE_OTHER : Nat := 0
def SCORING_WEIGHTS_INDUSTRY_EXACT_MATCH : Nat := 20
def SCORING_WEIGHTS_INDUSTRY_ADJACENT : Nat := 10
def SCORING_WEIGHTS_INDUSTRY_OTHER : Nat := 0
def SCORING_WEIGHTS_COMPLETENESS_ALL_FIELDS : Nat := 10
def SCORING_WEIGHTS_AI_HIGH : Nat := 50
def SCORING_WEIGHTS_AI_MEDIUM : Nat := 30
def SCORING_WEIGHTS_AI_LOW : Nat := 10

def DECISION_MAKER_ROLES : List String :=
  ["CEO", "CTO", "CFO", "COO", "CMO", "CPO",
   "VP", "Director", "Head of", "Chief", "President",
   "Owner", "Founder", "Co-founder", "Managing Director"]

def INFLUENCER_ROLES : List String :=
  ["Manager", "Lead", "Senior", "Principal", "Architect",
   "Consultant", "Specialist", "Advisor", "Strategist"]

def ICP_INDUSTRIES_EXACT : List String :=
  ["B2B SaaS", "Software", "Technology", "SaaS"]

def ICP_INDUSTRIES_ADJACENT : List String :=
  ["IT Services", "Consulting", "Digital Marketing", "E-commerce", "Fintech"]

def INTENT_THRESHOLDS_HIGH : Nat := 70
def INTENT_THRESHOLDS_MEDIUM : Nat := 40

/-! ## Rule engine (`RuleScoringService`) -/

/-- `RuleScoringService.scoreRole`: decision-maker keywords outrank
influencer keywords, case-insensitive substring match; empty role and
no match both score `OTHER` (0). -/
def scoreRole (role : String) : Nat :=
  if role = "" then SCORING_WEIGHTS_ROLE_OTHER
  else
    let roleUpper := jsToUpper role
    if DECISION_MAKER_ROLES.any fun dmRole => containsStr roleUpper (jsToUpper dmRole) then
      SCORING_WEIGHTS_ROLE_DECISION_MAKER
    else if INFLUENCER_ROLES.any fun infRole => containsStr roleUpper (jsToUpper infRole) then
      SCORING_WEIGHTS_ROLE_INFLUENCER
    else SCORING_WEIGHTS_ROLE_OTHER

/-- `RuleScoringService.scoreIndustry`: exact ICP keywords outrank
adjacent keywords, case-insensitive substring match. -/
def scoreIndustry (industry : String) : Nat :=
  if industry = "" then SCORING_WEIGHTS_INDUSTRY_OTHER
  else
    let industryUpper := jsToUpper industry
    if ICP_INDUSTRIES_EXACT.any fun icpIndustry => containsStr industryUpper (jsToUpper icpIndustry) then
      SCORING_WEIGHTS_INDUSTRY_EXACT_MATCH
    else if ICP_INDUSTRIES_ADJACENT.any fun adjIndustry => containsStr industryUpper (jsToUpper adjIndustry) then
      SCORING_WEIGHTS_INDUSTRY_ADJACENT
    else SCORING_WEIGHTS_INDUSTRY_OTHER

/-- `RuleScoringService.scoreCompleteness`: 10 points iff every one of the
six fields is truthy and non-empty after trimming
(`field && field.trim().length > 0`), else 0. -/
def scoreCompleteness (lead : Lead) : Nat :=
  let fields := [lead.name, lead.role, lead.company,
                 lead.industry, lead.location, lead.linkedin_bio]
  if fields.all fun field => field != "" && decide (0 < (jsTrim field).length) then
    SCORING_WEIGHTS_COMPLETENESS_ALL_FIELDS
  else 0

/-- Result of `RuleScoringService.calculateRuleScore`: `{ score, breakdown }`. -/
structure RuleScoreResult where
  score : Nat
  breakdown : ScoringBreakdown
deriving DecidableEq, Repr

/-- `RuleScoringService.calculateRuleScore`: the three sub-scores and
their sum. -/
def calculateRuleScore (lead : Lead) : RuleScoreResult :=
  let role_score := scoreRole lead.role
  let industry_score := scoreIndustry lead.industry
  let completeness_score := scoreCompleteness lead
  let total := role_score + industry_score + completeness_score
  { score := total,
    breakdown := { role_score, industry_score, completeness_score,
                   total_rule_score := total } }

/-! ## AI adapter (`AIScoringService`) -/

/-- The high-value keyword list local to `AIScoringService.fallbackScoring`. -/
def highValueKeywords : List String :=
  ["scale", "growth", "automation", "AI", "efficiency", "productivity"]

/-- The keyword test inside `fallbackScoring`: some keyword occurs
(case-insensitively) in the lead's bio. -/
def hasHighValueKeywords (lead : Lead) : Bool :=
  let bioLower := jsToLower lead.linkedin_bio
  highValueKeywords.any fun keyword => containsStr bioLower (jsToLower keyword)

/-- `AIScoringService.fallbackScoring`: local heuristic used when the
external service is not configured. Reads only the lead. -/
def fallbackScoring (lead : Lead) (offer : Offer) : AIResult :=
  let reasoning :=
    "Based on profile analysis: " ++ lead.role ++ " in " ++ lead.industry ++ " industry."
  if hasHighValueKeywords lead && containsStr (jsToLower lead.industry) "saas" then
    { score := SCORING_WEIGHTS_AI_HIGH, intent := Intent.High, reasoning }
  else if !hasHighValueKeywords lead && !containsStr (jsToLower lead.industry) "tech" then
    { score := SCORING_WEIGHTS_AI_LOW, intent := Intent.Low, reasoning }
  else
    { score := SCORING_WEIGHTS_AI_MEDIUM, intent := Intent.Medium, reasoning }

/-- The point value of a resolved intent label (`scoreMap` in
`parseAIResponse`): High 50, Medium 30, Low 10. -/
def scoreMap : Intent → Nat
  | Intent.High => SCORING_WEIGHTS_AI_HIGH
  | Intent.Medium => SCORING_WEIGHTS_AI_MEDIUM
  | Intent.Low => SCORING_WEIGHTS_AI_LOW

/-- One line of the `parseAIResponse` loop, updating the
`(intent, reasoning)` state. `line.replace('INTENT:', '')` removes the
first occurrence of the marker; under the `startsWith` guard that is
exactly dropping the marker prefix. -/
def parseLine (st : Intent × String) (line : String) : Intent × String :=
  if jsStartsWith line "INTENT:" then
    let intentStr := jsTrim (jsDrop line "INTENT:".length)
    if containsStr intentStr "High" then (Intent.High, st.2)
    else if containsStr intentStr "Low" then (Intent.Low, st.2)
    else (Intent.Medium, st.2)
  else if jsStartsWith line "REASONING:" then
    (st.1, jsTrim (jsDrop line "REASONING:".length))
  else st

/-- `AIScoringService.parseAIResponse`: scan the response lines for the
intent and reasoning markers, with defaults `Medium` and
"AI analysis completed", then map the final intent to its point value. -/
def parseAIResponse (response : String) : AIResult :=
  let st := (splitLines response).foldl parseLine
    (Intent.Medium, "AI analysis completed")
  { score := scoreMap st.1, intent := st.1, reasoning := st.2 }

/-- The external world as `scoreWithAI` observes it: the configured
credential (`process.env.OPENAI_API_KEY`), and the outcome of the chat
completion call once dispatched — either a raised error or the response
text (already defaulted to `''` when the API returned no content, as the
source's `?? ''` chain does). -/
structure AIEnv where
  apiKey : Option String
  callResult : Except Unit String
deriving Repr

/-- The credential check in `scoreWithAI`:
`!process.env.OPENAI_API_KEY || key === 'your_openai_api_key_here'`
(an unset variable and the empty string are both falsy). -/
def apiKeyMissing : Option String → Bool
  | none => true
  | some k => k == "" || k == "your_openai_api_key_here"

/-- The degraded default `scoreWithAI` returns when the dispatched call
raises: Medium score with a static reasoning string. -/
def aiFailureDefault : AIResult :=
  { score := SCORING_WEIGHTS_AI_MEDIUM, intent := Intent.Medium,
    reasoning := "Unable to determine intent via AI analysis" }

/-- `AIScoringService.scoreWithAI`: fallback heuristic when the credential
is missing or a placeholder; otherwise parse the response, or return the
degraded default if the call raised. Total — no failure escapes. -/
def scoreWithAI (env : AIEnv) (lead : Lead) (offer : Offer) : AIResult :=
  if apiKeyMissing env.apiKey then fallbackScoring lead offer
  else
    match env.callResult with
    | Except.error _ => aiFailureDefault
    | Except.ok response => parseAIResponse response

/-! ## Orchestrator (`LeadScoringService`) -/

/-- `LeadScoringService.determineIntent`: High at 70+, Medium at 40+,
else Low. -/
def determineIntent (score : Nat) : Intent :=
  if score ≥ INTENT_THRESHOLDS_HIGH then Intent.High
  else if score ≥ INTENT_THRESHOLDS_MEDIUM then Intent.Medium
  else Intent.Low

/-- `LeadScoringService.scoreLead`: rule score plus AI score, final
intent derived from the total; the lead's six fields are spread into the
result unchanged. -/
def scoreLead (env : AIEnv) (lead : Lead) (offer : Offer) : ScoredLead :=
  let ruleScore := (calculateRuleScore lead).score
  let ai := scoreWithAI env lead offer
  let totalScore := ruleScore + ai.score
  { name := lead.name, role := lead.role, company := lead.company,
    industry := lead.industry, location := lead.location,
    linkedin_bio := lead.linkedin_bio,
    score := totalScore, intent := determineIntent totalScore,
    reasoning := ai.reasoning, rule_score := ruleScore, ai_score := ai.score }

/-- How one iteration of the `scoreLeads` loop goes for a given lead:
either `scoreLead` completes (with some external-world observation), or
it throws and the `catch` branch runs. -/
inductive LeadRun where
  | ok (env : AIEnv)
  | throws
deriving Repr

/-- The fixed record pushed by the `catch` branch of
`LeadScoringService.scoreLeads`. -/
def errorPlaceholder (lead : Lead) : ScoredLead :=
  { name := lead.name, role := lead.role, company := lead.company,
    industry := lead.industry, location := lead.location,
    linkedin_bio := lead.linkedin_bio,
    score := 40, intent := Intent.Medium,
    reasoning := "Error during scoring process",
    rule_score := 20, ai_score := 20 }

/-- One loop iteration of `scoreLeads`: the `try` result or the `catch`
placeholder. -/
def scoreOneOrPlaceholder (offer : Offer) : Lead × LeadRun → ScoredLead
  | (lead, LeadRun.ok env) => scoreLead env lead offer
  | (lead, LeadRun.throws) => errorPlaceholder lead

/-- The sort order of `scoredLeads.sort((a, b) => b.score - a.score)`:
`a` may precede `b` exactly when `b.score - a.score ≤ 0`. -/
def scoreByDesc (a b : ScoredLead) : Bool :=
  decide (b.score ≤ a.score)

/-- The `scoredLeads` array of `LeadScoringService.scoreLeads` as built
by the loop, before the final sort: one record per input lead, in input
order. -/
def scoreLeadsPre (items : List (Lead × LeadRun)) (offer : Offer) : List ScoredLead :=
  items.map (scoreOneOrPlaceholder offer)

/-- `LeadScoringService.scoreLeads`: score every lead (isolating per-lead
failures) and sort by score descending. JavaScript `Array.sort` is
stable, so a stable merge sort models it exactly. -/
def scoreLeads (items : List (Lead × LeadRun)) (offer : Offer) : List ScoredLead :=
  (scoreLeadsPre items offer).mergeSort scoreByDesc

/-! ## Concrete inputs used by witnesses and counterexamples -/

/-- The spec's §8 scenario lead. -/
def amyChen : Lead :=
  { name := "Amy Chen", role := "VP of Sales", company := "Acme",
    industry := "B2B SaaS", location := "NYC",
    linkedin_bio := "Scaling outbound with automation" }

/-- A concrete valid offer. -/
def sampleOffer : Offer :=
  { name := "Outreach Automation Platform",
    value_props := ["24/7 automated outreach"],
    ideal_use_cases := ["B2B SaaS mid-market"] }

/-- A concrete external world with no credential configured. -/
def noKeyEnv : AIEnv := { apiKey := none, callResult := Except.error () }

/-- A concrete external world with a real credential whose dispatched
call raised. -/
def failedCallEnv : AIEnv := { apiKey := some "sk-live", callResult := Except.error () }

/-! ## Helper lemmas -/

theorem scoreRole_cases (role : String) :
    scoreRole role = 0 ∨ scoreRole role = 10 ∨ scoreRole role = 20 := by
  unfold scoreRole
  split
  · exact Or.inl rfl
  · dsimp only
    split
    · exact Or.inr (Or.inr rfl)
    · split
      · exact Or.inr (Or.inl rfl)
      · exact Or.inl rfl

theorem scoreIndustry_cases (industry : String) :
    scoreIndustry industry = 0 ∨ scoreIndustry industry = 10 ∨ scoreIndustry industry = 20 := by
  unfold scoreIndustry
  split
  · exact Or.inl rfl
  · dsimp only
    split
    · exact Or.inr (Or.inr rfl)
    · split
      · exact Or.inr (Or.inl rfl)
      · exact Or.inl rfl

theorem scoreCompleteness_cases (lead : Lead) :
    scoreCompleteness lead = 0 ∨ scoreCompleteness lead = 10 := by
  unfold scoreCompleteness
  dsimp only
  split
  · exact Or.inr rfl
  · exact Or.inl rfl

theorem calculateRuleScore_score_eq (lead : Lead) :
    (calculateRuleScore lead).score =
      scoreRole lead.role + scoreIndustry lead.industry + scoreCompleteness lead := rfl

theorem calculateRuleScore_le (lead : Lead) : (calculateRuleScore lead).score ≤ 50 := by
  rw [calculateRuleScore_score_eq]
  rcases scoreRole_cases lead.role with h1 | h1 | h1 <;>
    rcases scoreIndustry_cases lead.industry with h2 | h2 | h2 <;>
      rcases scoreCompleteness_cases lead with h3 | h3 <;>
        omega

theorem fallbackScoring_score_cases (lead : Lead) (offer : Offer) :
    (fallbackScoring lead offer).score = 10 ∨ (fallbackScoring lead offer).score = 30 ∨
      (fallbackScoring lead offer).score = 50 := by
  unfold fallbackScoring
  dsimp only
  split
  · exact Or.inr (Or.inr rfl)
  · split
    · exact Or.inl rfl
    · exact Or.inr (Or.inl rfl)

theorem parseAIResponse_score_cases (response : String) :
    (parseAIResponse response).score = 10 ∨ (parseAIResponse response).score = 30 ∨
      (parseAIResponse response).score = 50 := by
  unfold parseAIResponse
  dsimp only
  cases ((splitLines response).foldl parseLine (Intent.Medium, "AI analysis completed")).1 with
  | High => exact Or.inr (Or.inr rfl)
  | Medium => exact Or.inr (Or.inl rfl)
  | Low => exact Or.inl rfl

theorem scoreWithAI_score_cases (env : AIEnv) (lead : Lead) (offer : Offer) :
    (scoreWithAI env lead offer).score = 10 ∨ (scoreWithAI env lead offer).score = 30 ∨
      (scoreWithAI env lead offer).score = 50 := by
  unfold scoreWithAI
  split
  · exact fallbackScoring_score_cases lead offer
  · rcases h : env.callResult with e | response <;> simp only [h]
    · exact Or.inr (Or.inl rfl)
    · exact parseAIResponse_score_cases response

theorem determineIntent_spec (n : Nat) :
    (determineIntent n = Intent.High ↔ 70 ≤ n) ∧
    (determineIntent n = Intent.Medium ↔ 40 ≤ n ∧ n < 70) ∧
    (determineIntent n = Intent.Low ↔ n < 40) := by
  unfold determineIntent INTENT_THRESHOLDS_HIGH INTENT_THRESHOLDS_MEDIUM
  by_cases h1 : n ≥ 70
  · rw [if_pos h1]
    exact ⟨Iff.intro (fun _ => h1) (fun _ => rfl),
           Iff.intro (fun hh => Intent.noConfusion hh) (fun hc => absurd h1 (by omega)),
           Iff.intro (fun hh => Intent.noConfusion hh) (fun hc => absurd h1 (by omega))⟩
  · rw [if_neg h1]
    by_cases h2 : n ≥ 40
    · rw [if_pos h2]
      exact ⟨Iff.intro (fun hh => Intent.noConfusion hh) (fun hc => absurd hc h1),
             Iff.intro (fun _ => ⟨h2, by omega⟩) (fun _ => rfl),
             Iff.intro (fun hh => Intent.noConfusion hh) (fun hc => absurd hc (by omega))⟩
    · rw [if_neg h2]
      exact ⟨Iff.intro (fun hh => Intent.noConfusion hh) (fun hc => absurd hc h1),
             Iff.intro (fun hh => Intent.noConfusion hh) (fun hc => absurd hc.1 h2),
             Iff.intro (fun _ => by omega) (fun _ => rfl)⟩

theorem string_eq_empty_of_length_eq_zero {s : String} (h : s.length = 0) : s = "" := by
  cases s with
  | mk data =>
    cases data with
    | nil => rfl
    | cons c cs => simp [String.length] at h

theorem completeness_field_iff (f : String) :
    ((f != "") = true ∧ decide (0 < (jsTrim f).length) = true) ↔ jsTrim f ≠ "" := by
  rw [decide_eq_true_iff, bne_iff_ne]
  constructor
  · rintro ⟨h1, h2⟩ he
    rw [he] at h2
    simp at h2
  · intro h
    refine ⟨fun he => h (by rw [he]; rfl), ?_⟩
    by_contra hc
    exact h (string_eq_empty_of_length_eq_zero (by omega))

/-! ## Claims -/

/-- **C1** For every lead and offer (and every external-world observation),
the `ScoredLead` returned by `scoreLead` has `score = rule_score + ai_score`,
`score` lies in `[0, 100]`, and its intent is High iff `score ≥ 70`, Medium
iff `40 ≤ score < 70`, and Low iff `score < 40` (exhaustive, no gaps). -/
theorem scoreOne_score_sum_range_intent (env : AIEnv) (lead : Lead) (offer : Offer) :
    (scoreLead env lead offer).score
        = (scoreLead env lead offer).rule_score + (scoreLead env lead offer).ai_score ∧
    0 ≤ (scoreLead env lead offer).score ∧ (scoreLead env lead offer).score ≤ 100 ∧
    ((scoreLead env lead offer).intent = Intent.High ↔ 70 ≤ (scoreLead env lead offer).score) ∧
    ((scoreLead env lead offer).intent = Intent.Medium ↔
        40 ≤ (scoreLead env lead offer).score ∧ (scoreLead env lead offer).score < 70) ∧
    ((scoreLead env lead offer).intent = Intent.Low ↔ (scoreLead env lead offer).score < 40) := by
  have hscore : (scoreLead env lead offer).score
      = (calculateRuleScore lead).score + (scoreWithAI env lead offer).score := rfl
  have hint : (scoreLead env lead offer).intent
      = determineIntent ((scoreLead env lead offer).score) := rfl
  have hb1 := calculateRuleScore_le lead
  have hb2 := scoreWithAI_score_cases env lead offer
  have hspec := determineIntent_spec ((scoreLead env lead offer).score)
  refine ⟨rfl, Nat.zero_le _, ?_, ?_, ?_, ?_⟩
  · rw [hscore]
    rcases hb2 with h | h | h <;> omega
  · rw [hint]
    exact hspec.1
  · rw [hint]
    exact hspec.2.1
  · rw [hint]
    exact hspec.2.2

/-- **C8** For every lead, the rule engine's `completeness_score` is 10 if
and only if all six lead fields are non-empty after trimming whitespace,
and 0 otherwise (binary, no partial credit). -/
theorem scoreCompleteness_binary (lead : Lead) :
    (scoreCompleteness lead = 10 ↔
      (jsTrim lead.name ≠ "" ∧ jsTrim lead.role ≠ "" ∧ jsTrim lead.company ≠ "" ∧
       jsTrim lead.industry ≠ "" ∧ jsTrim lead.location ≠ "" ∧ jsTrim lead.linkedin_bio ≠ "")) ∧
    (scoreCompleteness lead = 0 ↔
      ¬(jsTrim lead.name ≠ "" ∧ jsTrim lead.role ≠ "" ∧ jsTrim lead.company ≠ "" ∧
        jsTrim lead.industry ≠ "" ∧ jsTrim lead.location ≠ "" ∧ jsTrim lead.linkedin_bio ≠ "")) := by
  have key : (([lead.name, lead.role, lead.company, lead.industry, lead.location,
      lead.linkedin_bio].all fun field =>
        field != "" && decide (0 < (jsTrim field).length)) = true) ↔
      (jsTrim lead.name ≠ "" ∧ jsTrim lead.role ≠ "" ∧ jsTrim lead.company ≠ "" ∧
       jsTrim lead.industry ≠ "" ∧ jsTrim lead.location ≠ "" ∧
       jsTrim lead.linkedin_bio ≠ "") := by
    simp only [List.all_cons, List.all_nil, Bool.and_eq_true, Bool.and_true,
      completeness_field_iff]
  unfold scoreCompleteness SCORING_WEIGHTS_COMPLETENESS_ALL_FIELDS
  dsimp only
  split
  · rename_i h
    rw [key] at h
    exact ⟨Iff.intro (fun _ => h) (fun _ => rfl),
           Iff.intro (fun h10 => absurd h10 (by decide)) (fun hc => absurd h hc)⟩
  · rename_i h
    rw [key] at h
    exact ⟨Iff.intro (fun h0 => absurd h0 (by decide)) (fun hc => absurd hc h),
           Iff.intro (fun _ => h) (fun _ => rfl)⟩

/-- **C9** The fallback classifier's output is independent of the offer:
for every lead and any two offers, `fallbackScoring` returns an identical
`(score, intent, reasoning)` record, since the heuristic never inspects
its offer argument. -/
theorem fallbackScoring_offer_independent (lead : Lead) (o1 o2 : Offer) :
    fallbackScoring lead o1 = fallbackScoring lead o2 := rfl

/-- **C4** For every lead (and any offer), the fallback classifier returns
High with score 50 if the bio contains (case-insensitively) a keyword from
the growth/automation/efficiency set AND the industry text contains
"saas"; Low with score 10 if no such keyword is present AND the industry
text does not contain "tech"; and Medium with score 30 otherwise. -/
theorem fallbackScoring_heuristic_cases (lead : Lead) (offer : Offer) :
    (hasHighValueKeywords lead = true →
       containsStr (jsToLower lead.industry) "saas" = true →
       (fallbackScoring lead offer).score = 50 ∧
       (fallbackScoring lead offer).intent = Intent.High) ∧
    (hasHighValueKeywords lead = false →
       containsStr (jsToLower lead.industry) "tech" = false →
       (fallbackScoring lead offer).score = 10 ∧
       (fallbackScoring lead offer).intent = Intent.Low) ∧
    (¬(hasHighValueKeywords lead = true ∧
        containsStr (jsToLower lead.industry) "saas" = true) →
     ¬(hasHighValueKeywords lead = false ∧
        containsStr (jsToLower lead.industry) "tech" = false) →
       (fallbackScoring lead offer).score = 30 ∧
       (fallbackScoring lead offer).intent = Intent.Medium) := by
  cases hkw : hasHighValueKeywords lead <;>
    cases hsaas : containsStr (jsToLower lead.industry) "saas" <;>
      cases htech : containsStr (jsToLower lead.industry) "tech" <;>
        simp [fallbackScoring, hkw, hsaas, htech, SCORING_WEIGHTS_AI_HIGH,
          SCORING_WEIGHTS_AI_MEDIUM, SCORING_WEIGHTS_AI_LOW]

/-- **C6** The classifier never propagates an external-service failure:
`scoreWithAI` is a total function, and the two unavailability cases route
differently — a missing/placeholder credential returns the local
heuristic's result, while a failure raised after the call was dispatched
returns the degraded default (score 30, intent Medium, static "unable to
determine" reasoning). -/
theorem scoreWithAI_total_routing (env : AIEnv) (lead : Lead) (offer : Offer) :
    (apiKeyMissing env.apiKey = true →
       scoreWithAI env lead offer = fallbackScoring lead offer) ∧
    (apiKeyMissing env.apiKey = false → env.callResult = Except.error () →
       scoreWithAI env lead offer = aiFailureDefault) ∧
    aiFailureDefault.score = 30 ∧ aiFailureDefault.intent = Intent.Medium ∧
    aiFailureDefault.reasoning = "Unable to determine intent via AI analysis" := by
  refine ⟨?_, ?_, rfl, rfl, rfl⟩
  · intro h
    unfold scoreWithAI
    rw [if_pos h]
  · intro h he
    unfold scoreWithAI
    rw [if_neg (by simp [h]), he]

/-- **C7** Every `ScoredLead` the pipeline emits — by normal scoring or by
the batch error placeholder — has `intent` equal to the fixed threshold
function applied to its `score`; intent is a pure function of score. -/
theorem intent_pure_function_of_score (env : AIEnv) (lead : Lead) (offer : Offer)
    (items : List (Lead × LeadRun)) (offer2 : Offer) :
    (scoreLead env lead offer).intent = determineIntent (scoreLead env lead offer).score ∧
    ∀ sl ∈ scoreLeads items offer2, sl.intent = determineIntent sl.score := by
  constructor
  · rfl
  · intro sl hsl
    rw [scoreLeads, List.mem_mergeSort, scoreLeadsPre, List.mem_map] at hsl
    obtain ⟨⟨l, run⟩, hmem, heq⟩ := hsl
    cases run with
    | ok e =>
      rw [← heq]
      rfl
    | throws =>
      rw [← heq]
      rfl

/-- **C10** `scoreLead` preserves the input lead's fields: the returned
`ScoredLead`'s `name, role, company, industry, location, linkedin_bio`
equal those of the input lead; the same holds for the error placeholder
emitted by the batch loop. -/
theorem scoreLead_preserves_lead_fields (env : AIEnv) (lead : Lead) (offer : Offer) :
    ((scoreLead env lead offer).name = lead.name ∧
     (scoreLead env lead offer).role = lead.role ∧
     (scoreLead env lead offer).company = lead.company ∧
     (scoreLead env lead offer).industry = lead.industry ∧
     (scoreLead env lead offer).location = lead.location ∧
     (scoreLead env lead offer).linkedin_bio = lead.linkedin_bio) ∧
    ((errorPlaceholder lead).name = lead.name ∧
     (errorPlaceholder lead).role = lead.role ∧
     (errorPlaceholder lead).company = lead.company ∧
     (errorPlaceholder lead).industry = lead.industry ∧
     (errorPlaceholder lead).location = lead.location ∧
     (errorPlaceholder lead).linkedin_bio = lead.linkedin_bio) :=
  ⟨⟨rfl, rfl, rfl, rfl, rfl, rfl⟩, ⟨rfl, rfl, rfl, rfl, rfl, rfl⟩⟩

/-- **C2** For every list of leads and every offer, `scoreLeads` returns
exactly one output record per input lead (including the empty list), and
any lead whose scoring throws is still emitted with the fixed placeholder
`rule_score = 20`, `ai_score = 20`, `score = 40`, `intent = Medium`,
`reasoning = "Error during scoring process"`; no per-lead failure aborts
the batch. -/
theorem scoreBatch_length_and_error_isolation (items : List (Lead × LeadRun)) (offer : Offer) :
    (scoreLeads items offer).length = items.length ∧
    ∀ lead : Lead, (lead, LeadRun.throws) ∈ items →
      errorPlaceholder lead ∈ scoreLeads items offer ∧
      (errorPlaceholder lead).rule_score = 20 ∧ (errorPlaceholder lead).ai_score = 20 ∧
      (errorPlaceholder lead).score = 40 ∧ (errorPlaceholder lead).intent = Intent.Medium ∧
      (errorPlaceholder lead).reasoning = "Error during scoring process" := by
  constructor
  · rw [scoreLeads, List.length_mergeSort, scoreLeadsPre, List.length_map]
  · intro lead h
    refine ⟨?_, rfl, rfl, rfl, rfl, rfl⟩
    rw [scoreLeads, List.mem_mergeSort, scoreLeadsPre, List.mem_map]
    exact ⟨(lead, LeadRun.throws), h, rfl⟩

/-- **C3** For every list of leads and every offer, `scoreLeads` is
sorted non-increasing by `score`, and for any score value the records
carrying it appear in the same relative order as before the sort, i.e. in
input order (stable sort). -/
theorem scoreBatch_sorted_and_stable (items : List (Lead × LeadRun)) (offer : Offer) :
    List.Pairwise (fun a b => b.score ≤ a.score) (scoreLeads items offer) ∧
    ∀ s : Nat, (scoreLeads items offer).filter (fun x => x.score == s)
             = (scoreLeadsPre items offer).filter (fun x => x.score == s) := by
  have htrans : ∀ a b c : ScoredLead, scoreByDesc a b → scoreByDesc b c → scoreByDesc a c := by
    intro a b c hab hbc
    simp only [scoreByDesc, decide_eq_true_eq] at *
    omega
  have htotal : ∀ a b : ScoredLead, scoreByDesc a b || scoreByDesc b a := by
    intro a b
    simp only [scoreByDesc, Bool.or_eq_true, decide_eq_true_eq]
    omega
  constructor
  · have h := List.sorted_mergeSort htrans htotal (scoreLeadsPre items offer)
    exact h.imp fun hab => by
      simp only [scoreByDesc, decide_eq_true_eq] at hab
      exact hab
  · intro s
    have hperm : List.Perm ((scoreLeads items offer).filter fun x => x.score == s)
        ((scoreLeadsPre items offer).filter fun x => x.score == s) :=
      (List.mergeSort_perm (scoreLeadsPre items offer) scoreByDesc).filter _
    have hpw : ((scoreLeadsPre items offer).filter (fun x => x.score == s)).Pairwise
        fun a b => scoreByDesc a b = true := by
      apply List.pairwise_of_forall_mem_list
      intro a ha b hb
      have ha2 : a.score = s := by simpa using (List.mem_filter.mp ha).2
      have hb2 : b.score = s := by simpa using (List.mem_filter.mp hb).2
      simp [scoreByDesc, ha2, hb2]
    have hsub : List.Sublist ((scoreLeadsPre items offer).filter fun x => x.score == s)
        (scoreLeads items offer) :=
      List.sublist_mergeSort htrans htotal hpw (List.filter_sublist _)
    have hsub2 : List.Sublist ((scoreLeadsPre items offer).filter fun x => x.score == s)
        ((scoreLeads items offer).filter fun x => x.score == s) := by
      have h2 := hsub.filter fun x => x.score == s
      simpa [List.filter_filter] using h2
    exact (hsub2.eq_of_length hperm.length_eq.symm).symm

/-- **C5** counterexample: the claim "every `ai_score` the pipeline
produces is in {10, 30, 50}" is false at the concrete batch in which one
lead's scoring throws — the emitted placeholder carries `ai_score = 20`. -/
theorem scoreBatch_ai_score_twenty_reachable :
    ¬ ∀ sl, sl ∈ scoreLeads [(amyChen, LeadRun.throws)] sampleOffer →
        (sl.ai_score = 10 ∨ sl.ai_score = 30 ∨ sl.ai_score = 50) := by
  intro hall
  have hmem : errorPlaceholder amyChen ∈ scoreLeads [(amyChen, LeadRun.throws)] sampleOffer := by
    simp [scoreLeads, scoreLeadsPre, scoreOneOrPlaceholder]
  have h := hall _ hmem
  simp only [errorPlaceholder] at h
  omega

/-- **C5** (amended) Every `ai_score` the classifier produces — primary
parse, runtime-failure default, or fallback heuristic — is in
{10, 30, 50}; the batch error placeholder is the single further source of
an `ai_score`, carrying 20, so every pipeline output has
`ai_score ∈ {10, 20, 30, 50}`. -/
theorem ai_score_reachable_values (env : AIEnv) (lead : Lead) (offer : Offer)
    (items : List (Lead × LeadRun)) (offer2 : Offer) :
    ((scoreWithAI env lead offer).score = 10 ∨ (scoreWithAI env lead offer).score = 30 ∨
      (scoreWithAI env lead offer).score = 50) ∧
    ((scoreLead env lead offer).ai_score = 10 ∨ (scoreLead env lead offer).ai_score = 30 ∨
      (scoreLead env lead offer).ai_score = 50) ∧
    ∀ sl ∈ scoreLeads items offer2,
      sl.ai_score = 10 ∨ sl.ai_score = 20 ∨ sl.ai_score = 30 ∨ sl.ai_score = 50 := by
  refine ⟨scoreWithAI_score_cases env lead offer, scoreWithAI_score_cases env lead offer, ?_⟩
  intro sl hsl
  rw [scoreLeads, List.mem_mergeSort, scoreLeadsPre, List.mem_map] at hsl
  obtain ⟨⟨l, run⟩, hmem, heq⟩ := hsl
  cases run with
  | ok e =>
    rw [← heq]
    rcases scoreWithAI_score_cases e l offer2 with h | h | h
    · exact Or.inl h
    · exact Or.inr (Or.inr (Or.inl h))
    · exact Or.inr (Or.inr (Or.inr h))
  | throws =>
    rw [← heq]
    exact Or.inr (Or.inl rfl)

/-! ## Witnesses -/

/-- Witness for C2 at a concrete one-element batch whose lead throws. -/
theorem scoreBatch_length_and_error_isolation_witness :
    (scoreLeads [(amyChen, LeadRun.throws)] sampleOffer).length = 1 ∧
    errorPlaceholder amyChen ∈ scoreLeads [(amyChen, LeadRun.throws)] sampleOffer :=
  have h := scoreBatch_length_and_error_isolation [(amyChen, LeadRun.throws)] sampleOffer
  ⟨h.1, (h.2 amyChen (by simp)).1⟩

/-- Witness for C4: the spec's scenario lead hits the High branch of the
fallback heuristic. -/
theorem fallbackScoring_heuristic_cases_witness :
    (fallbackScoring amyChen sampleOffer).score = 50 ∧
    (fallbackScoring amyChen sampleOffer).intent = Intent.High :=
  (fallbackScoring_heuristic_cases amyChen sampleOffer).1 (by decide) (by decide)

/-- Witness for C5 (amended) at the concrete placeholder output. -/
theorem ai_score_reachable_values_witness :
    (errorPlaceholder amyChen).ai_score = 10 ∨ (errorPlaceholder amyChen).ai_score = 20 ∨
    (errorPlaceholder amyChen).ai_score = 30 ∨ (errorPlaceholder amyChen).ai_score = 50 :=
  (ai_score_reachable_values noKeyEnv amyChen sampleOffer
      [(amyChen, LeadRun.throws)] sampleOffer).2.2
    (errorPlaceholder amyChen)
    (by simp [scoreLeads, scoreLeadsPre, scoreOneOrPlaceholder])

/-- Witness for C6: both unavailability routes at concrete environments. -/
theorem scoreWithAI_total_routing_witness :
    scoreWithAI noKeyEnv amyChen sampleOffer = fallbackScoring amyChen sampleOffer ∧
    scoreWithAI failedCallEnv amyChen sampleOffer = aiFailureDefault :=
  ⟨(scoreWithAI_total_routing noKeyEnv amyChen sampleOffer).1 (by decide),
   (scoreWithAI_total_routing failedCallEnv amyChen sampleOffer).2.1 (by decide) rfl⟩

/-- Witness for C7 at a concrete batch containing a throwing lead. -/
theorem intent_pure_function_of_score_witness :
    (errorPlaceholder amyChen).intent = determineIntent (errorPlaceholder amyChen).score :=
  (intent_pure_function_of_score noKeyEnv amyChen sampleOffer
      [(amyChen, LeadRun.throws)] sampleOffer).2
    (errorPlaceholder amyChen)
    (by simp [scoreLeads, scoreLeadsPre, scoreOneOrPlaceholder])

end Kuvaka
